import Mathlib

/-!
Verification of the mesh-building core of `src/core/src/meshing/MeshBuilder.cpp`.

The C++ code is shallowly embedded: machine doubles become rationals,
the external Triangle library call `::triangulate` becomes an abstract
function parameter, the elevation provider / Perlin noise / color gradient
collaborators become function-valued fields, and the `push_back` loops
become list appends.
-/

namespace UtyMap

/-- 2D vector (`utymap::meshing::Vector2`). -/
structure Vector2 where
  x : ℚ
  y : ℚ
deriving DecidableEq

/-- 3D vector (`utymap::meshing::Vector3`): `x`, `y` (height), `z`. -/
structure Vector3 where
  x : ℚ
  y : ℚ
  z : ℚ
deriving DecidableEq

/-- Output accumulator (`utymap::meshing::Mesh`): flattened vertex triples,
triangle indices, packed per-vertex colors, flattened uv pairs. -/
structure Mesh where
  vertices : List ℚ
  triangles : List ℤ
  colors : List ℤ
  uvs : List ℚ
deriving DecidableEq

/-- Input polygon (`utymap::meshing::Polygon`): flattened boundary points,
flattened hole points, flattened constrained-segment index pairs. -/
structure Polygon where
  points : List ℚ
  holes : List ℚ
  segments : List ℤ

/-- Tile bounding box (minimum / maximum latitude and longitude). -/
structure BoundingBox where
  minLatitude : ℚ
  minLongitude : ℚ
  maxLatitude : ℚ
  maxLongitude : ℚ

/-- Color gradient collaborator: `gradient.evaluate(t) -> packed color`. -/
structure ColorGradient where
  evaluate : ℚ → ℤ

/-- Texture atlas region: `isEmpty()` and `map(relative) -> uv`. -/
structure TextureRegion where
  isEmpty : Bool
  map : Vector2 → Vector2

/-- `utymap::meshing::GeometryOptions`.  `segmentSplit` is a C `int`, so it
is kept as an integer (the `Y`-repetition loop runs `max 0 segmentSplit`
times, exactly as `for (int i = 0; i < segmentSplit; i++)` does). -/
structure GeometryOptions where
  area : ℚ
  elevation : ℚ
  eleNoiseFreq : ℚ
  heightOffset : ℚ
  segmentSplit : ℤ
  flipSide : Bool
  hasBackSide : Bool

/-- `utymap::meshing::AppearanceOptions`. -/
structure AppearanceOptions where
  gradient : ColorGradient
  colorNoiseFreq : ℚ
  textureRegion : TextureRegion
  textureScale : ℚ

/-- The state captured by `MeshBuilder::MeshBuilderImpl`: the tile bounding
box and the elevation provider (`getElevation(latitude, longitude)`),
together with the deterministic external noise function
`NoiseUtils::perlin2D(x, y, frequency)`. -/
structure MeshBuilderImpl where
  bbox : BoundingBox
  getElevation : ℚ → ℚ → ℚ
  perlin2D : ℚ → ℚ → ℚ → ℚ

/-- The triangulation exchange struct `triangulateio` (only the fields the
embedded code reads or writes). -/
structure Triangulateio where
  pointlist : List ℚ
  pointmarkerlist : Option (List ℤ)
  trianglelist : List ℤ
  trianglearealist : List ℚ
  holelist : List ℚ
  segmentlist : List ℤ
  numberofpoints : ℕ
  numberoftriangles : ℕ
  numberofcorners : ℕ
  numberofholes : ℕ
  numberofsegments : ℕ

/-- The external Triangle library entry point `::triangulate`, abstracted
as a function from an option string and an input struct to an output
struct.  The repository does not contain its implementation. -/
abbrev Triangulate := String → Triangulateio → Triangulateio

/-- `std::numeric_limits<double>::lowest()` as an exact rational: the most
negative finite IEEE-754 double, `-(2^1024 - 2^971)`, written as an
explicit numeral (see `doubleLowest_eq`). -/
def doubleLowest : ℚ := -179769313486231570814527423731704356798070567525844996598917476803157260780028538760589558632766878171540458953514382464234321326889464182768467546703537516986049910576551282076245490090389328944075868508455133942304583236903222948165808559332123348274797826204144723168738177180919299881250404026184124858368

/-- `std::numeric_limits<double>::epsilon()` as an exact rational: `2^-52`
(see `doubleEpsilon_eq`). -/
def doubleEpsilon : ℚ := Rat.divInt 1 4503599627370496

/-- `std::abs` on doubles: the absolute value. -/
def fabs (q : ℚ) : ℚ := if q < 0 then -q else q

/-- Build-up of consecutive list chunks: `chunks f n = f 0 ++ f 1 ++ ... ++ f (n-1)`,
the generic shape of the `for (i = 0; i < n; i++) push_back(...)` loops. -/
def chunks (f : ℕ → List α) : ℕ → List α
  | 0 => []
  | n + 1 => chunks f n ++ f n

/-- x coordinate of triangulation point `i`: `io->pointlist[i * 2 + 0]`. -/
def pointX (io : Triangulateio) (i : ℕ) : ℚ := io.pointlist.getD (i * 2) 0

/-- y coordinate of triangulation point `i`: `io->pointlist[i * 2 + 1]`. -/
def pointY (io : Triangulateio) (i : ℕ) : ℚ := io.pointlist.getD (i * 2 + 1) 0

/-- Corner `c` of triangle `i`: `io->trianglelist[i * io->numberofcorners + c]`. -/
def cornerIdx (io : Triangulateio) (i c : ℕ) : ℤ :=
  io.trianglelist.getD (i * io.numberofcorners + c) 0

/-- The elevation stored for triangulation point `i` by
`MeshBuilderImpl::fillMesh`: height offset plus either the explicit
elevation override (when above the `double` sentinel) or the provider
sample, plus the Perlin perturbation unless the point-marker list is
absent or marks the point as boundary (`marker == 1`). -/
def vertexEle (m : MeshBuilderImpl) (g : GeometryOptions) (io : Triangulateio) (i : ℕ) : ℚ :=
  let x := pointX io i
  let y := pointY io i
  let ele := g.heightOffset + (if doubleLowest < g.elevation then g.elevation else m.getElevation y x)
  match io.pointmarkerlist with
  | some markers => if markers.getD i 0 ≠ 1 then ele + m.perlin2D x y g.eleNoiseFreq else ele
  | none => ele

/-- Modelled from the spec: `GradientUtils::getColor` (in
`utils/GradientUtils`, not under `src/`): sample 2D noise at the point's
coordinate scaled by `colorNoiseFreq`, remap from [-1,1] to [0,1], and
evaluate the gradient at that position to obtain a packed color. -/
def getColor (m : MeshBuilderImpl) (gradient : ColorGradient) (x y freq : ℚ) : ℤ :=
  gradient.evaluate ((m.perlin2D x y freq + 1) / 2)

/-- `MeshBuilderImpl::createMapFunc`: the texture-coordinate mapper.
Empty texture region yields the constant `(0,0)` mapper; otherwise the
point is made relative to the tile bounding box, scaled, and mapped by
the region. -/
def createMapFunc (m : MeshBuilderImpl) (a : AppearanceOptions) : ℚ → ℚ → Vector2 :=
  if a.textureRegion.isEmpty then
    fun _ _ => ⟨0, 0⟩
  else
    let geoHeight := m.bbox.maxLatitude - m.bbox.minLatitude
    let geoWidth := m.bbox.maxLongitude - m.bbox.minLongitude
    let geoX := m.bbox.minLongitude
    let geoY := m.bbox.minLatitude
    fun x y =>
      a.textureRegion.map ⟨(x - geoX) / geoWidth * a.textureScale,
                           (y - geoY) / geoHeight * a.textureScale⟩

/-- The three vertex components pushed for triangulation point `i`. -/
def vertexChunk (m : MeshBuilderImpl) (g : GeometryOptions) (io : Triangulateio) (i : ℕ) :
    List ℚ :=
  [pointX io i, pointY io i, vertexEle m g io i]

/-- The two uv components pushed for triangulation point `i`. -/
def uvChunk (mapF : ℚ → ℚ → Vector2) (io : Triangulateio) (i : ℕ) : List ℚ :=
  [(mapF (pointX io i) (pointY io i)).x, (mapF (pointX io i) (pointY io i)).y]

/-- The three triangle indices pushed for triangle `i`: corners visited in
order (1,0,2), or (2,0,1) when `flipSide` is set, each offset by the
vertex count the mesh had when the fill began. -/
def triChunk (g : GeometryOptions) (io : Triangulateio) (triStartIndex : ℤ) (i : ℕ) : List ℤ :=
  [triStartIndex + cornerIdx io i (if g.flipSide then 2 else 1),
   triStartIndex + cornerIdx io i 0,
   triStartIndex + cornerIdx io i (if g.flipSide then 1 else 2)]

/-- `MeshBuilderImpl::fillMesh`: append one vertex/color/uv per
triangulation point and three offset indices per triangle. -/
def fillMesh (m : MeshBuilderImpl) (io : Triangulateio) (mesh : Mesh)
    (g : GeometryOptions) (a : AppearanceOptions) : Mesh :=
  let triStartIndex : ℤ := (mesh.vertices.length / 3 : ℕ)
  let mapF := createMapFunc m a
  { vertices := mesh.vertices ++ chunks (vertexChunk m g io) io.numberofpoints
    triangles := mesh.triangles ++ chunks (triChunk g io triStartIndex) io.numberoftriangles
    colors := mesh.colors ++
      chunks (fun i => [getColor m a.gradient (pointX io i) (pointY io i) a.colorNoiseFreq])
        io.numberofpoints
    uvs := mesh.uvs ++ chunks (uvChunk mapF io) io.numberofpoints }

/-- The input marshalling of `addPolygon`: counts halved from the flattened
arrays, markers absent. -/
def triInput (p : Polygon) : Triangulateio :=
  { pointlist := p.points
    pointmarkerlist := none
    trianglelist := []
    trianglearealist := []
    holelist := p.holes
    segmentlist := p.segments
    numberofpoints := p.points.length / 2
    numberoftriangles := 0
    numberofcorners := 0
    numberofholes := p.holes.length / 2
    numberofsegments := p.segments.length / 2 }

/-- Option string of the conforming triangulation pass. -/
def conformingOptions : String := "pzBQ"

/-- Option string of the refinement pass: `"prazPQ"` with `Y` appended once
per `segmentSplit` loop iteration. -/
def refineOptions (g : GeometryOptions) : String :=
  "prazPQ" ++ String.mk (List.replicate g.segmentSplit.toNat 'Y')

/-- The refinement input: the conforming result with every triangle
assigned the same target area `geometryOptions.area`. -/
def refineInput (mid : Triangulateio) (g : GeometryOptions) : Triangulateio :=
  { mid with trianglearealist := List.replicate mid.numberoftriangles g.area }

/-- `MeshBuilderImpl::addPolygon`: run the conforming pass; fill directly
when `|area|` is below the double epsilon, otherwise run the area-refined
pass on the conforming result and fill from that. -/
def addPolygon (tri : Triangulate) (m : MeshBuilderImpl) (mesh : Mesh) (p : Polygon)
    (g : GeometryOptions) (a : AppearanceOptions) : Mesh :=
  let mid := tri conformingOptions (triInput p)
  if fabs g.area < doubleEpsilon then
    fillMesh m mid mesh g a
  else
    fillMesh m (tri (refineOptions g) (refineInput mid g)) mesh g a

/-- The triangulation output that `addPolygon` feeds to `fillMesh`. -/
def polygonTriangulation (tri : Triangulate) (p : Polygon) (g : GeometryOptions) :
    Triangulateio :=
  let mid := tri conformingOptions (triInput p)
  if fabs g.area < doubleEpsilon then mid else tri (refineOptions g) (refineInput mid g)

/-- `MeshBuilderImpl::addVertex` (Vector2 overload): push the position
triple, the color, the uv pair `(0,0)` and one triangle index. -/
def addVertex (mesh : Mesh) (p : Vector2) (ele : ℚ) (color : ℤ) (triIndex : ℤ) : Mesh :=
  { vertices := mesh.vertices ++ [p.x, p.y, ele]
    triangles := mesh.triangles ++ [triIndex]
    colors := mesh.colors ++ [color]
    uvs := mesh.uvs ++ [0, 0] }

/-- `MeshBuilderImpl::addVertex` (Vector3 overload): delegates with
`(x, z)` as the 2D position and `y` as the elevation. -/
def addVertex3 (mesh : Mesh) (v : Vector3) (color : ℤ) (triIndex : ℤ) : Mesh :=
  addVertex mesh ⟨v.x, v.z⟩ v.y color triIndex

/-- `MeshBuilderImpl::addPlane` (explicit-elevation overload): one color
from noise-perturbed gradient evaluation at `p1`, then six vertices with
indices `index, index+2, index+1, index+3, index+5, index+4`. -/
def addPlaneEle (m : MeshBuilderImpl) (mesh : Mesh) (p1 p2 : Vector2) (ele1 ele2 : ℚ)
    (g : GeometryOptions) (a : AppearanceOptions) : Mesh :=
  let color := a.gradient.evaluate ((m.perlin2D p1.x p1.y a.colorNoiseFreq + 1) / 2)
  let index : ℤ := (mesh.vertices.length / 3 : ℕ)
  let m1 := addVertex mesh p1 ele1 color index
  let m2 := addVertex m1 p2 ele2 color (index + 2)
  let m3 := addVertex m2 p2 (ele2 + g.heightOffset) color (index + 1)
  let m4 := addVertex m3 p1 (ele1 + g.heightOffset) color (index + 3)
  let m5 := addVertex m4 p1 ele1 color (index + 5)
  addVertex m5 p2 (ele2 + g.heightOffset) color (index + 4)

/-- `MeshBuilderImpl::addPlane` (two-point overload): sample the provider
at each point, add the Perlin perturbation, and delegate. -/
def addPlane (m : MeshBuilderImpl) (mesh : Mesh) (p1 p2 : Vector2)
    (g : GeometryOptions) (a : AppearanceOptions) : Mesh :=
  let ele1 := m.getElevation p1.y p1.x + m.perlin2D p1.x p1.y g.eleNoiseFreq
  let ele2 := m.getElevation p2.y p2.x + m.perlin2D p2.x p2.y g.eleNoiseFreq
  addPlaneEle m mesh p1 p2 ele1 ele2 g a

/-- `MeshBuilderImpl::addTriangle`: three vertices at indices
`startIndex, startIndex+1, startIndex+2`; when `hasBackSide` is set, three
more vertices `v2, v1, v0` at indices `startIndex+2, startIndex+3,
startIndex+4` (the `startIndex` variable is *not* reset, which is what the
source's `// TODO check indices` comment refers to). -/
def addTriangle (m : MeshBuilderImpl) (mesh : Mesh) (v0 v1 v2 : Vector3)
    (g : GeometryOptions) (a : AppearanceOptions) : Mesh :=
  let color := a.gradient.evaluate ((m.perlin2D v0.x v0.z a.colorNoiseFreq + 1) / 2)
  let startIndex : ℤ := (mesh.vertices.length / 3 : ℕ)
  let m1 := addVertex3 mesh v0 color startIndex
  let m2 := addVertex3 m1 v1 color (startIndex + 1)
  let m3 := addVertex3 m2 v2 color (startIndex + 2)
  if g.hasBackSide then
    let m4 := addVertex3 m3 v2 color (startIndex + 2)
    let m5 := addVertex3 m4 v1 color (startIndex + 3)
    addVertex3 m5 v0 color (startIndex + 4)
  else
    m3

/-- The Mesh data invariant: three vertex components per color, two uv
components per three vertex components, and every triangle entry a valid
vertex index. -/
def meshInvariant (mesh : Mesh) : Prop :=
  mesh.vertices.length = mesh.colors.length * 3 ∧
  mesh.vertices.length * 2 = mesh.uvs.length * 3 ∧
  ∀ t ∈ mesh.triangles, 0 ≤ t ∧ t < ((mesh.vertices.length / 3 : ℕ) : ℤ)

instance (mesh : Mesh) : Decidable (meshInvariant mesh) := by
  unfold meshInvariant; infer_instance

/-- `m'` extends `m`: every buffer of `m` is an unchanged initial run of
the corresponding buffer of `m'`. -/
def MeshExtends (m' m : Mesh) : Prop :=
  ∃ dv dt dc du,
    m' = { vertices := m.vertices ++ dv
           triangles := m.triangles ++ dt
           colors := m.colors ++ dc
           uvs := m.uvs ++ du }

/-! ### Concrete sample data used to evaluate the definitions -/

/-- A concrete builder: flat elevation 0, constant Perlin noise 1. -/
def cImpl : MeshBuilderImpl :=
  { bbox := ⟨0, 0, 1, 1⟩
    getElevation := fun _ _ => 0
    perlin2D := fun _ _ _ => 1 }

/-- A concrete appearance bundle with an empty texture region. -/
def cAppearance : AppearanceOptions :=
  { gradient := ⟨fun _ => 7⟩
    colorNoiseFreq := 0
    textureRegion := ⟨true, fun _ => ⟨0, 0⟩⟩
    textureScale := 1 }

/-- A concrete geometry bundle: refinement disabled, elevation sentinel. -/
def cGeometry : GeometryOptions :=
  { area := 0
    elevation := doubleLowest
    eleNoiseFreq := 0
    heightOffset := 0
    segmentSplit := 0
    flipSide := false
    hasBackSide := false }

/-- A concrete conforming-triangulation output: one triangle over three
points, boundary markers suppressed (as the `B` flag of `"pzBQ"` does). -/
def cIo : Triangulateio :=
  { pointlist := [0, 0, 1, 0, 0, 1]
    pointmarkerlist := none
    trianglelist := [0, 1, 2]
    trianglearealist := []
    holelist := []
    segmentlist := []
    numberofpoints := 3
    numberoftriangles := 1
    numberofcorners := 3
    numberofholes := 0
    numberofsegments := 0 }

/-- A concrete triangulation stub returning `cIo` for every request. -/
def cTri : Triangulate := fun _ _ => cIo

/-- A concrete triangle polygon. -/
def cPolygon : Polygon := ⟨[0, 0, 1, 0, 0, 1], [], []⟩

/-- The empty mesh. -/
def emptyMesh : Mesh := ⟨[], [], [], []⟩

/-- The mesh produced by `addTriangle` with `hasBackSide = true` on three
distinct sample points (the failing input of the back-side index slip). -/
def cBackSideMesh : Mesh :=
  addTriangle cImpl emptyMesh ⟨0, 10, 0⟩ ⟨1, 11, 1⟩ ⟨2, 12, 2⟩
    { cGeometry with hasBackSide := true } cAppearance

/-! ### General lemmas -/

theorem doubleLowest_eq : doubleLowest = -(2 ^ 1024 - 2 ^ 971) := by
  norm_num [doubleLowest]

theorem doubleEpsilon_eq : doubleEpsilon = 1 / 2 ^ 52 := by
  rw [doubleEpsilon, Rat.divInt_eq_div]
  norm_num

theorem fabs_eq_abs (q : ℚ) : fabs q = |q| := by
  rw [fabs]
  rcases lt_trichotomy q 0 with h | h | h
  · rw [if_pos h, abs_of_neg h]
  · simp [h]
  · rw [if_neg (by linarith), abs_of_pos h]

theorem chunks_length (f : ℕ → List α) (c : ℕ) (h : ∀ i, (f i).length = c) :
    ∀ n, (chunks f n).length = n * c
  | 0 => by simp [chunks]
  | n + 1 => by
    show (chunks f n ++ f n).length = _
    rw [List.length_append, chunks_length f c h n, h n, Nat.succ_mul]

theorem chunks_getD (f : ℕ → List α) (c : ℕ) (h : ∀ i, (f i).length = c)
    {n i k : ℕ} (hi : i < n) (hk : k < c) (d : α) :
    (chunks f n).getD (i * c + k) d = (f i).getD k d := by
  induction n with
  | zero => exact absurd hi (Nat.not_lt_zero i)
  | succ m ih =>
    have hlen : (chunks f m).length = m * c := chunks_length f c h m
    rcases Nat.lt_succ_iff_lt_or_eq.mp hi with h1 | h2
    · have hmul : i * c + c ≤ m * c := by
        calc i * c + c = (i + 1) * c := by ring
          _ ≤ m * c := Nat.mul_le_mul_right c h1
      have hlt : i * c + k < (chunks f m).length := by omega
      show (chunks f m ++ f m).getD (i * c + k) d = _
      rw [List.getD_append _ _ _ _ hlt]
      exact ih h1
    · subst h2
      have hge : (chunks f i).length ≤ i * c + k := by omega
      show (chunks f i ++ f i).getD (i * c + k) d = _
      rw [List.getD_append_right _ _ _ _ hge, hlen]
      congr 1
      omega

theorem mem_chunks {f : ℕ → List α} {x : α} :
    ∀ {n : ℕ}, (x ∈ chunks f n ↔ ∃ i, i < n ∧ x ∈ f i) := by
  intro n
  induction n with
  | zero => simp [chunks]
  | succ m ih =>
    show x ∈ chunks f m ++ f m ↔ _
    rw [List.mem_append, ih]
    constructor
    · rintro (⟨i, hi, hx⟩ | hx)
      · exact ⟨i, by omega, hx⟩
      · exact ⟨m, by omega, hx⟩
    · rintro ⟨i, hi, hx⟩
      rcases Nat.lt_succ_iff_lt_or_eq.mp hi with h1 | h2
      · exact Or.inl ⟨i, h1, hx⟩
      · subst h2
        exact Or.inr hx

theorem chunks_pair_zero : ∀ n : ℕ, chunks (fun _ => ([0, 0] : List ℚ)) n = List.replicate (n * 2) 0
  | 0 => rfl
  | n + 1 => by
    show chunks _ n ++ [0, 0] = _
    rw [chunks_pair_zero n, Nat.succ_mul, List.replicate_add]
    rfl

theorem addPolygon_eq_fillMesh (tri : Triangulate) (m : MeshBuilderImpl) (mesh : Mesh)
    (p : Polygon) (g : GeometryOptions) (a : AppearanceOptions) :
    addPolygon tri m mesh p g a = fillMesh m (polygonTriangulation tri p g) mesh g a := by
  by_cases hc : fabs g.area < doubleEpsilon <;>
    simp [addPolygon, polygonTriangulation, hc]

theorem meshExtends_trans {m3 m2 m1 : Mesh} (h32 : MeshExtends m3 m2)
    (h21 : MeshExtends m2 m1) : MeshExtends m3 m1 := by
  obtain ⟨a2, b2, c2, d2, h2⟩ := h21
  obtain ⟨a3, b3, c3, d3, h3⟩ := h32
  refine ⟨a2 ++ a3, b2 ++ b3, c2 ++ c3, d2 ++ d3, ?_⟩
  rw [h3, h2]
  simp [List.append_assoc]

theorem meshExtends_addVertex (mesh : Mesh) (p : Vector2) (ele : ℚ) (color : ℤ) (t : ℤ) :
    MeshExtends (addVertex mesh p ele color t) mesh :=
  ⟨[p.x, p.y, ele], [t], [color], [0, 0], rfl⟩

theorem meshExtends_addVertex3 (mesh : Mesh) (v : Vector3) (color : ℤ) (t : ℤ) :
    MeshExtends (addVertex3 mesh v color t) mesh :=
  meshExtends_addVertex mesh ⟨v.x, v.z⟩ v.y color t

theorem fillMesh_lengths (m : MeshBuilderImpl) (io : Triangulateio) (mesh : Mesh)
    (g : GeometryOptions) (a : AppearanceOptions) :
    (fillMesh m io mesh g a).vertices.length = mesh.vertices.length + io.numberofpoints * 3 ∧
    (fillMesh m io mesh g a).colors.length = mesh.colors.length + io.numberofpoints * 1 ∧
    (fillMesh m io mesh g a).uvs.length = mesh.uvs.length + io.numberofpoints * 2 ∧
    (fillMesh m io mesh g a).triangles.length =
      mesh.triangles.length + io.numberoftriangles * 3 := by
  refine ⟨?_, ?_, ?_, ?_⟩
  · show (_ ++ chunks (vertexChunk m g io) _).length = _
    rw [List.length_append, chunks_length (vertexChunk m g io) 3 (fun _ => rfl)]
  · show (_ ++ chunks
      (fun i => [getColor m a.gradient (pointX io i) (pointY io i) a.colorNoiseFreq]) _).length = _
    rw [List.length_append, chunks_length
      (fun i => [getColor m a.gradient (pointX io i) (pointY io i) a.colorNoiseFreq]) 1
      (fun _ => rfl)]
  · show (_ ++ chunks (uvChunk (createMapFunc m a) io) _).length = _
    rw [List.length_append, chunks_length (uvChunk (createMapFunc m a) io) 2 (fun _ => rfl)]
  · show (_ ++ chunks (triChunk g io ((mesh.vertices.length / 3 : ℕ) : ℤ)) _).length = _
    rw [List.length_append, chunks_length (triChunk g io ((mesh.vertices.length / 3 : ℕ) : ℤ)) 3
      (fun _ => rfl)]

theorem meshInvariant_addPlaneEle (m : MeshBuilderImpl) (mesh : Mesh) (p1 p2 : Vector2)
    (ele1 ele2 : ℚ) (g : GeometryOptions) (a : AppearanceOptions) (hm : meshInvariant mesh) :
    meshInvariant (addPlaneEle m mesh p1 p2 ele1 ele2 g a) := by
  obtain ⟨hvc, hvu, htri⟩ := hm
  have hveq : (addPlaneEle m mesh p1 p2 ele1 ele2 g a).vertices.length =
      mesh.vertices.length + 18 := by
    simp [addPlaneEle, addVertex]
  have hceq : (addPlaneEle m mesh p1 p2 ele1 ele2 g a).colors.length =
      mesh.colors.length + 6 := by
    simp [addPlaneEle, addVertex]
  have hueq : (addPlaneEle m mesh p1 p2 ele1 ele2 g a).uvs.length =
      mesh.uvs.length + 12 := by
    simp [addPlaneEle, addVertex]
  refine ⟨by omega, by omega, ?_⟩
  intro t ht
  rw [hveq]
  have hteq : (addPlaneEle m mesh p1 p2 ele1 ele2 g a).triangles =
      mesh.triangles ++
        [((mesh.vertices.length / 3 : ℕ) : ℤ), ((mesh.vertices.length / 3 : ℕ) : ℤ) + 2,
         ((mesh.vertices.length / 3 : ℕ) : ℤ) + 1, ((mesh.vertices.length / 3 : ℕ) : ℤ) + 3,
         ((mesh.vertices.length / 3 : ℕ) : ℤ) + 5, ((mesh.vertices.length / 3 : ℕ) : ℤ) + 4] := by
    simp [addPlaneEle, addVertex, List.append_assoc]
  rw [hteq] at ht
  rcases List.mem_append.mp ht with hold | hnew
  · exact ⟨(htri t hold).1, by have := (htri t hold).2; omega⟩
  · simp only [List.mem_cons, List.not_mem_nil, or_false] at hnew
    rcases hnew with h | h | h | h | h | h <;> subst h <;> omega

theorem meshInvariant_addTriangle (m : MeshBuilderImpl) (mesh : Mesh) (v0 v1 v2 : Vector3)
    (g : GeometryOptions) (a : AppearanceOptions) (hm : meshInvariant mesh) :
    meshInvariant (addTriangle m mesh v0 v1 v2 g a) := by
  obtain ⟨hvc, hvu, htri⟩ := hm
  by_cases hb : g.hasBackSide
  · have hveq : (addTriangle m mesh v0 v1 v2 g a).vertices.length =
        mesh.vertices.length + 18 := by
      simp [addTriangle, addVertex3, addVertex, hb]
    have hceq : (addTriangle m mesh v0 v1 v2 g a).colors.length = mesh.colors.length + 6 := by
      simp [addTriangle, addVertex3, addVertex, hb]
    have hueq : (addTriangle m mesh v0 v1 v2 g a).uvs.length = mesh.uvs.length + 12 := by
      simp [addTriangle, addVertex3, addVertex, hb]
    refine ⟨by omega, by omega, ?_⟩
    intro t ht
    rw [hveq]
    have hteq : (addTriangle m mesh v0 v1 v2 g a).triangles =
        mesh.triangles ++
          [((mesh.vertices.length / 3 : ℕ) : ℤ), ((mesh.vertices.length / 3 : ℕ) : ℤ) + 1,
           ((mesh.vertices.length / 3 : ℕ) : ℤ) + 2, ((mesh.vertices.length / 3 : ℕ) : ℤ) + 2,
           ((mesh.vertices.length / 3 : ℕ) : ℤ) + 3, ((mesh.vertices.length / 3 : ℕ) : ℤ) + 4] := by
      simp [addTriangle, addVertex3, addVertex, hb, List.append_assoc]
    rw [hteq] at ht
    rcases List.mem_append.mp ht with hold | hnew
    · exact ⟨(htri t hold).1, by have := (htri t hold).2; omega⟩
    · simp only [List.mem_cons, List.not_mem_nil, or_false] at hnew
      rcases hnew with h | h | h | h | h | h <;> subst h <;> omega
  · have hveq : (addTriangle m mesh v0 v1 v2 g a).vertices.length =
        mesh.vertices.length + 9 := by
      simp [addTriangle, addVertex3, addVertex, hb]
    have hceq : (addTriangle m mesh v0 v1 v2 g a).colors.length = mesh.colors.length + 3 := by
      simp [addTriangle, addVertex3, addVertex, hb]
    have hueq : (addTriangle m mesh v0 v1 v2 g a).uvs.length = mesh.uvs.length + 6 := by
      simp [addTriangle, addVertex3, addVertex, hb]
    refine ⟨by omega, by omega, ?_⟩
    intro t ht
    rw [hveq]
    have hteq : (addTriangle m mesh v0 v1 v2 g a).triangles =
        mesh.triangles ++
          [((mesh.vertices.length / 3 : ℕ) : ℤ), ((mesh.vertices.length / 3 : ℕ) : ℤ) + 1,
           ((mesh.vertices.length / 3 : ℕ) : ℤ) + 2] := by
      simp [addTriangle, addVertex3, addVertex, hb, List.append_assoc]
    rw [hteq] at ht
    rcases List.mem_append.mp ht with hold | hnew
    · exact ⟨(htri t hold).1, by have := (htri t hold).2; omega⟩
    · simp only [List.mem_cons, List.not_mem_nil, or_false] at hnew
      rcases hnew with h | h | h <;> subst h <;> omega

/-! ### Claim theorems -/

/-- C5: `addPlane` appends exactly six vertices (18 coordinates, six
colors) and two triangles (six index entries); the 3rd and 4th appended
vertices repeat the (x,y) of the 2nd and 1st at elevation `+heightOffset`
(visible in the explicit vertex list); the one color, derived from
noise-perturbed gradient evaluation at `p1`, is given to all six vertices;
and the two-point overload delegates to the explicit-elevation overload,
so the same holds for every call to `addPlane`. -/
theorem addPlane_quad (m : MeshBuilderImpl) (mesh : Mesh) (p1 p2 : Vector2) (ele1 ele2 : ℚ)
    (g : GeometryOptions) (a : AppearanceOptions) :
    (addPlaneEle m mesh p1 p2 ele1 ele2 g a).vertices =
      mesh.vertices ++
        [p1.x, p1.y, ele1, p2.x, p2.y, ele2,
         p2.x, p2.y, ele2 + g.heightOffset, p1.x, p1.y, ele1 + g.heightOffset,
         p1.x, p1.y, ele1, p2.x, p2.y, ele2 + g.heightOffset] ∧
    (addPlaneEle m mesh p1 p2 ele1 ele2 g a).triangles.length = mesh.triangles.length + 6 ∧
    (addPlaneEle m mesh p1 p2 ele1 ele2 g a).colors =
      mesh.colors ++
        List.replicate 6 (a.gradient.evaluate ((m.perlin2D p1.x p1.y a.colorNoiseFreq + 1) / 2)) ∧
    addPlane m mesh p1 p2 g a =
      addPlaneEle m mesh p1 p2
        (m.getElevation p1.y p1.x + m.perlin2D p1.x p1.y g.eleNoiseFreq)
        (m.getElevation p2.y p2.x + m.perlin2D p2.x p2.y g.eleNoiseFreq) g a := by
  refine ⟨?_, ?_, ?_, rfl⟩ <;>
    simp [addPlaneEle, addVertex, List.append_assoc, List.replicate]

/-- C8: every builder operation only appends: the prior contents of all
four mesh buffers are an unchanged initial run of the result's buffers. -/
theorem builder_append_only (tri : Triangulate) (m : MeshBuilderImpl) (mesh : Mesh)
    (p : Polygon) (p1 p2 : Vector2) (ele1 ele2 : ℚ) (v0 v1 v2 : Vector3)
    (g : GeometryOptions) (a : AppearanceOptions) :
    MeshExtends (addPolygon tri m mesh p g a) mesh ∧
    MeshExtends (addPlane m mesh p1 p2 g a) mesh ∧
    MeshExtends (addPlaneEle m mesh p1 p2 ele1 ele2 g a) mesh ∧
    MeshExtends (addTriangle m mesh v0 v1 v2 g a) mesh := by
  refine ⟨?_, ?_, ?_, ?_⟩
  · rw [addPolygon_eq_fillMesh]
    exact ⟨_, _, _, _, rfl⟩
  · unfold addPlane addPlaneEle
    exact meshExtends_trans (meshExtends_addVertex _ _ _ _ _)
      (meshExtends_trans (meshExtends_addVertex _ _ _ _ _)
        (meshExtends_trans (meshExtends_addVertex _ _ _ _ _)
          (meshExtends_trans (meshExtends_addVertex _ _ _ _ _)
            (meshExtends_trans (meshExtends_addVertex _ _ _ _ _)
              (meshExtends_addVertex _ _ _ _ _)))))
  · unfold addPlaneEle
    exact meshExtends_trans (meshExtends_addVertex _ _ _ _ _)
      (meshExtends_trans (meshExtends_addVertex _ _ _ _ _)
        (meshExtends_trans (meshExtends_addVertex _ _ _ _ _)
          (meshExtends_trans (meshExtends_addVertex _ _ _ _ _)
            (meshExtends_trans (meshExtends_addVertex _ _ _ _ _)
              (meshExtends_addVertex _ _ _ _ _)))))
  · unfold addTriangle
    by_cases hb : g.hasBackSide
    · simp only [hb, if_true]
      exact meshExtends_trans (meshExtends_addVertex3 _ _ _ _)
        (meshExtends_trans (meshExtends_addVertex3 _ _ _ _)
          (meshExtends_trans (meshExtends_addVertex3 _ _ _ _)
            (meshExtends_trans (meshExtends_addVertex3 _ _ _ _)
              (meshExtends_trans (meshExtends_addVertex3 _ _ _ _)
                (meshExtends_addVertex3 _ _ _ _)))))
    · simp only [hb, if_false]
      exact meshExtends_trans (meshExtends_addVertex3 _ _ _ _)
        (meshExtends_trans (meshExtends_addVertex3 _ _ _ _)
          (meshExtends_addVertex3 _ _ _ _))

/-- C9 (implicit): the plane and triangle builders write uv `(0,0)` for
every appended vertex unconditionally — the appearance options, including
a non-empty texture region, are never consulted for uvs on these paths. -/
theorem plane_triangle_uv_zero (m : MeshBuilderImpl) (mesh : Mesh) (p1 p2 : Vector2)
    (ele1 ele2 : ℚ) (v0 v1 v2 : Vector3) (g : GeometryOptions) (a : AppearanceOptions) :
    (addPlane m mesh p1 p2 g a).uvs = mesh.uvs ++ List.replicate 12 0 ∧
    (addPlaneEle m mesh p1 p2 ele1 ele2 g a).uvs = mesh.uvs ++ List.replicate 12 0 ∧
    (addTriangle m mesh v0 v1 v2 g a).uvs =
      mesh.uvs ++ List.replicate (if g.hasBackSide then 12 else 6) 0 := by
  refine ⟨?_, ?_, ?_⟩ <;>
  · by_cases hb : g.hasBackSide <;>
      simp [addPlane, addPlaneEle, addTriangle, addVertex, addVertex3, hb,
        List.append_assoc, List.replicate]

/-- C2 (code bug, evaluated): `addTriangle` with `hasBackSide = true` on
the distinct points `v0 = (0,10,0)`, `v1 = (1,11,1)`, `v2 = (2,12,2)` does
append 6 vertices and 2 triangles, but because `startIndex` is not reset
before the back-side block the second triangle's index entries are
`(2,3,4)`, so it references the points `(v2, v2, v1)` — its third corner
has x-coordinate 1 (that of `v1`), not 0 (that of `v0`) — instead of the
reverse order `(v2, v1, v0)` stated by the spec; the sixth appended vertex
(a copy of `v0`) is never referenced. -/
theorem addTriangle_backside_bug :
    cBackSideMesh.vertices.length = 18 ∧
    cBackSideMesh.colors.length = 6 ∧
    cBackSideMesh.triangles = [0, 1, 2, 2, 3, 4] ∧
    cBackSideMesh.vertices.getD (3 * 2) 0 = 2 ∧
    cBackSideMesh.vertices.getD (3 * 3) 0 = 2 ∧
    cBackSideMesh.vertices.getD (3 * 4) 0 = 1 ∧
    cBackSideMesh.vertices.getD (3 * 5) 0 = 0 := by
  with_unfolding_all decide

/-- C10 (implicit): the two-point `addPlane` overload always samples the
elevation provider and always adds the Perlin perturbation, for every
input, and its result never depends on the `geometryOptions.elevation`
override field; the first appended vertex's stored elevation is exactly
`provider + noise` even when an explicit override is set. -/
theorem addPlane_two_point_elevation (m : MeshBuilderImpl) (mesh : Mesh) (p1 p2 : Vector2)
    (g : GeometryOptions) (a : AppearanceOptions) :
    addPlane m mesh p1 p2 g a =
      addPlaneEle m mesh p1 p2
        (m.getElevation p1.y p1.x + m.perlin2D p1.x p1.y g.eleNoiseFreq)
        (m.getElevation p2.y p2.x + m.perlin2D p2.x p2.y g.eleNoiseFreq) g a ∧
    (∀ e : ℚ, addPlane m mesh p1 p2 { g with elevation := e } a = addPlane m mesh p1 p2 g a) ∧
    (addPlane m mesh p1 p2 g a).vertices.getD (mesh.vertices.length + 2) 0 =
      m.getElevation p1.y p1.x + m.perlin2D p1.x p1.y g.eleNoiseFreq := by
  refine ⟨rfl, fun e => rfl, ?_⟩
  have h1 : (addPlane m mesh p1 p2 g a).vertices =
      mesh.vertices ++
        [p1.x, p1.y, m.getElevation p1.y p1.x + m.perlin2D p1.x p1.y g.eleNoiseFreq,
         p2.x, p2.y, m.getElevation p2.y p2.x + m.perlin2D p2.x p2.y g.eleNoiseFreq,
         p2.x, p2.y, m.getElevation p2.y p2.x + m.perlin2D p2.x p2.y g.eleNoiseFreq + g.heightOffset,
         p1.x, p1.y, m.getElevation p1.y p1.x + m.perlin2D p1.x p1.y g.eleNoiseFreq + g.heightOffset,
         p1.x, p1.y, m.getElevation p1.y p1.x + m.perlin2D p1.x p1.y g.eleNoiseFreq,
         p2.x, p2.y, m.getElevation p2.y p2.x + m.perlin2D p2.x p2.y g.eleNoiseFreq + g.heightOffset] := by
    simp [addPlane, addPlaneEle, addVertex, List.append_assoc]
  rw [h1, List.getD_append_right _ _ _ _ (by omega)]
  simp

/-- C4: for every `addPolygon` call, triangle `i` of the triangulation it
fills from is emitted as three indices at positions `3i, 3i+1, 3i+2` past
the pre-existing triangle entries, each offset by the mesh's vertex count
before the fill began, visiting the local corners in order (1,0,2), or
(2,0,1) when `flipSide` is set. -/
theorem addPolygon_winding (tri : Triangulate) (m : MeshBuilderImpl) (mesh : Mesh) (p : Polygon)
    (g : GeometryOptions) (a : AppearanceOptions) (io : Triangulateio)
    (hio : io = polygonTriangulation tri p g) (i : ℕ) (hi : i < io.numberoftriangles) :
    ((addPolygon tri m mesh p g a).triangles.getD (mesh.triangles.length + (i * 3 + 0)) 0 =
      ((mesh.vertices.length / 3 : ℕ) : ℤ) + cornerIdx io i (if g.flipSide then 2 else 1)) ∧
    ((addPolygon tri m mesh p g a).triangles.getD (mesh.triangles.length + (i * 3 + 1)) 0 =
      ((mesh.vertices.length / 3 : ℕ) : ℤ) + cornerIdx io i 0) ∧
    ((addPolygon tri m mesh p g a).triangles.getD (mesh.triangles.length + (i * 3 + 2)) 0 =
      ((mesh.vertices.length / 3 : ℕ) : ℤ) + cornerIdx io i (if g.flipSide then 1 else 2)) := by
  subst hio
  rw [addPolygon_eq_fillMesh]
  refine ⟨?_, ?_, ?_⟩ <;>
  · show (mesh.triangles ++
      chunks (triChunk g (polygonTriangulation tri p g) ((mesh.vertices.length / 3 : ℕ) : ℤ))
        (polygonTriangulation tri p g).numberoftriangles).getD _ _ = _
    rw [List.getD_append_right _ _ _ _ (by omega)]
    simp only [Nat.add_sub_cancel_left]
    rw [chunks_getD
      (triChunk g (polygonTriangulation tri p g) ((mesh.vertices.length / 3 : ℕ) : ℤ)) 3
      (fun _ => rfl) hi (by omega)]
    simp [triChunk]

/-- C4 witness: at the concrete sample triangulation (one triangle with
corners `(0,1,2)`, `flipSide = false`) the first emitted index entry is
corner 1, the second corner 0, the third corner 2. -/
theorem addPolygon_winding_witness :
    (addPolygon cTri cImpl emptyMesh cPolygon cGeometry cAppearance).triangles.getD 0 0 = 1 ∧
    (addPolygon cTri cImpl emptyMesh cPolygon cGeometry cAppearance).triangles.getD 1 0 = 0 ∧
    (addPolygon cTri cImpl emptyMesh cPolygon cGeometry cAppearance).triangles.getD 2 0 = 2 := by
  have h := addPolygon_winding cTri cImpl emptyMesh cPolygon cGeometry cAppearance
    (polygonTriangulation cTri cPolygon cGeometry) rfl 0 (by with_unfolding_all decide)
  exact ⟨h.1.trans (by with_unfolding_all decide), h.2.1.trans (by with_unfolding_all decide), h.2.2.trans (by with_unfolding_all decide)⟩

/-- C1 (amended): for every `addPolygon` call, the elevation stored for
triangulation point `i` is the base elevation (height offset plus either
the explicit override or the provider sample) plus the Perlin term exactly
when the triangulation supplies a point-marker list and it marks the point
as non-boundary (`marker ≠ 1`); when the marker list is absent — as the
conforming pass's `B` flag produces — no vertex receives the noise term. -/
theorem addPolygon_boundary_noise (tri : Triangulate) (m : MeshBuilderImpl) (mesh : Mesh)
    (p : Polygon) (g : GeometryOptions) (a : AppearanceOptions) (io : Triangulateio)
    (hio : io = polygonTriangulation tri p g) (i : ℕ) (hi : i < io.numberofpoints) :
    (addPolygon tri m mesh p g a).vertices.getD (mesh.vertices.length + (i * 3 + 2)) 0 =
      (g.heightOffset +
        (if doubleLowest < g.elevation then g.elevation
         else m.getElevation (pointY io i) (pointX io i))) +
      (match io.pointmarkerlist with
       | some markers =>
         if markers.getD i 0 ≠ 1 then m.perlin2D (pointX io i) (pointY io i) g.eleNoiseFreq
         else 0
       | none => 0) := by
  subst hio
  rw [addPolygon_eq_fillMesh]
  show (mesh.vertices ++
    chunks (vertexChunk m g (polygonTriangulation tri p g))
      (polygonTriangulation tri p g).numberofpoints).getD _ _ = _
  rw [List.getD_append_right _ _ _ _ (by omega)]
  simp only [Nat.add_sub_cancel_left]
  rw [chunks_getD (vertexChunk m g (polygonTriangulation tri p g)) 3 (fun _ => rfl) hi
    (by omega)]
  show vertexEle m g (polygonTriangulation tri p g) i = _
  simp only [vertexEle]
  generalize (polygonTriangulation tri p g).pointmarkerlist = pm
  cases pm with
  | none =>
    dsimp only
    rw [add_zero]
  | some markers =>
    dsimp only
    by_cases h1 : markers.getD i 0 ≠ 1
    · rw [if_pos h1, if_pos h1]
    · rw [if_neg h1, if_neg h1, add_zero]

/-- C1 witness: at the concrete sample the marker list is present when we
make `cTri` return one, and the unmarked vertex receives the noise term. -/
theorem addPolygon_boundary_noise_witness :
    (addPolygon (fun _ _ => { cIo with pointmarkerlist := some [0, 1, 1] }) cImpl emptyMesh
      cPolygon cGeometry cAppearance).vertices.getD 2 0 = 1 := by
  have h := addPolygon_boundary_noise (fun _ _ => { cIo with pointmarkerlist := some [0, 1, 1] })
    cImpl emptyMesh cPolygon cGeometry cAppearance
    (polygonTriangulation (fun _ _ => { cIo with pointmarkerlist := some [0, 1, 1] })
      cPolygon cGeometry) rfl 0 (by with_unfolding_all decide)
  exact h.trans (by with_unfolding_all decide)

/-- C1 counterexample: the conforming pass is requested with the `B` flag
(suppress boundary markers) and `mid.pointmarkerlist` initialized to null,
so in the unrefined path no point is marked as a boundary point; the claim
then requires every vertex's elevation to include the noise term, yet with
the provider returning 0, zero offsets and constant noise 1, the appended
elevation of vertex 0 is `0`, not the noise-inclusive `0 + 1`. -/
theorem addPolygon_boundary_noise_cex :
    (polygonTriangulation cTri cPolygon cGeometry).pointmarkerlist = none ∧
    (addPolygon cTri cImpl emptyMesh cPolygon cGeometry cAppearance).vertices.getD 2 0 = 0 ∧
    (0 : ℚ) + cImpl.perlin2D 0 0 cGeometry.eleNoiseFreq = 1 ∧
    ((0 : ℚ) = 1 → False) := by
  with_unfolding_all decide

/-- C3: every builder operation — `addPolygon`, both `addPlane` overloads,
`addTriangle` — preserves the Mesh invariant (three vertex components per
color, two uv components per three vertex components, and every triangle
entry a valid vertex index), assuming the triangulation output's own
corner indices are in range for `addPolygon`. -/
theorem builder_ops_preserve_invariant (tri : Triangulate) (m : MeshBuilderImpl) (mesh : Mesh)
    (p : Polygon) (p1 p2 : Vector2) (ele1 ele2 : ℚ) (v0 v1 v2 : Vector3)
    (g : GeometryOptions) (a : AppearanceOptions)
    (hm : meshInvariant mesh)
    (hio : ∀ i, i < (polygonTriangulation tri p g).numberoftriangles → ∀ c, c < 3 →
      0 ≤ cornerIdx (polygonTriangulation tri p g) i c ∧
      cornerIdx (polygonTriangulation tri p g) i c <
        ((polygonTriangulation tri p g).numberofpoints : ℤ)) :
    meshInvariant (addPolygon tri m mesh p g a) ∧
    meshInvariant (addPlane m mesh p1 p2 g a) ∧
    meshInvariant (addPlaneEle m mesh p1 p2 ele1 ele2 g a) ∧
    meshInvariant (addTriangle m mesh v0 v1 v2 g a) := by
  refine ⟨?_, meshInvariant_addPlaneEle m mesh p1 p2 _ _ g a hm,
    meshInvariant_addPlaneEle m mesh p1 p2 ele1 ele2 g a hm,
    meshInvariant_addTriangle m mesh v0 v1 v2 g a hm⟩
  obtain ⟨hvc, hvu, htri⟩ := hm
  rw [addPolygon_eq_fillMesh]
  obtain ⟨hl1, hl2, hl3, hl4⟩ :=
    fillMesh_lengths m (polygonTriangulation tri p g) mesh g a
  refine ⟨by rw [hl1, hl2]; omega, by rw [hl1, hl3]; omega, ?_⟩
  intro t ht
  rw [hl1]
  have ht' : t ∈ mesh.triangles ++
      chunks
        (triChunk g (polygonTriangulation tri p g) ((mesh.vertices.length / 3 : ℕ) : ℤ))
        (polygonTriangulation tri p g).numberoftriangles := ht
  rcases List.mem_append.mp ht' with hold | hnew
  · exact ⟨(htri t hold).1, by have := (htri t hold).2; omega⟩
  · obtain ⟨i, hi, hchunk⟩ := mem_chunks.mp hnew
    have hb1 := hio i hi (if g.flipSide then 2 else 1) (by split <;> omega)
    have hb0 := hio i hi 0 (by omega)
    have hb2 := hio i hi (if g.flipSide then 1 else 2) (by split <;> omega)
    simp only [triChunk, List.mem_cons, List.not_mem_nil, or_false] at hchunk
    rcases hchunk with h | h | h <;> subst h <;>
      [exact ⟨by omega, by omega⟩; exact ⟨by omega, by omega⟩; exact ⟨by omega, by omega⟩]

/-- C3 witness: with the empty mesh, the concrete sample triangulation
(three points, one triangle with in-range corners) and concrete plane and
triangle inputs, the invariant holds of the `addPolygon` result. -/
theorem builder_ops_preserve_invariant_witness :
    meshInvariant (addPolygon cTri cImpl emptyMesh cPolygon cGeometry cAppearance) :=
  (builder_ops_preserve_invariant cTri cImpl emptyMesh cPolygon ⟨0, 0⟩ ⟨1, 0⟩ 0 0
    ⟨0, 0, 0⟩ ⟨1, 0, 0⟩ ⟨0, 1, 0⟩ cGeometry cAppearance
    (by with_unfolding_all decide) (by with_unfolding_all decide)).1

/-- C6: when the texture region is empty, every vertex appended by any
builder operation receives uv `(0,0)`, regardless of input coordinates. -/
theorem empty_texture_uv_zero (tri : Triangulate) (m : MeshBuilderImpl) (mesh : Mesh)
    (p : Polygon) (p1 p2 : Vector2) (ele1 ele2 : ℚ) (v0 v1 v2 : Vector3)
    (g : GeometryOptions) (a : AppearanceOptions)
    (ha : a.textureRegion.isEmpty = true) :
    (addPolygon tri m mesh p g a).uvs =
      mesh.uvs ++ List.replicate ((polygonTriangulation tri p g).numberofpoints * 2) 0 ∧
    (addPlane m mesh p1 p2 g a).uvs = mesh.uvs ++ List.replicate 12 0 ∧
    (addPlaneEle m mesh p1 p2 ele1 ele2 g a).uvs = mesh.uvs ++ List.replicate 12 0 ∧
    (addTriangle m mesh v0 v1 v2 g a).uvs =
      mesh.uvs ++ List.replicate (if g.hasBackSide then 12 else 6) 0 := by
  refine ⟨?_, ?_, ?_, ?_⟩
  · rw [addPolygon_eq_fillMesh]
    show mesh.uvs ++
      chunks (uvChunk (createMapFunc m a) (polygonTriangulation tri p g))
        (polygonTriangulation tri p g).numberofpoints = _
    have hmap : createMapFunc m a = fun _ _ => (⟨0, 0⟩ : Vector2) := by
      simp [createMapFunc, ha]
    have hchunk : uvChunk (createMapFunc m a) (polygonTriangulation tri p g) =
        fun _ => [0, 0] := by
      funext i
      simp [uvChunk, hmap]
    rw [hchunk, chunks_pair_zero]
  · simp [addPlane, addPlaneEle, addVertex, List.append_assoc, List.replicate]
  · simp [addPlaneEle, addVertex, List.append_assoc, List.replicate]
  · by_cases hb : g.hasBackSide <;>
      simp [addTriangle, addVertex3, addVertex, hb, List.append_assoc, List.replicate]

/-- C6 witness: at the concrete sample (empty texture region, three
triangulation points) the appended uvs are six zeros. -/
theorem empty_texture_uv_zero_witness :
    (addPolygon cTri cImpl emptyMesh cPolygon cGeometry cAppearance).uvs =
      List.replicate 6 0 := by
  have h := (empty_texture_uv_zero cTri cImpl emptyMesh cPolygon ⟨0, 0⟩ ⟨1, 0⟩ 0 0
    ⟨0, 0, 0⟩ ⟨1, 0, 0⟩ ⟨0, 1, 0⟩ cGeometry cAppearance rfl).1
  exact h.trans (by with_unfolding_all decide)

/-- C7: when `|area|` is below the double epsilon, `addPolygon` fills the
mesh directly from the conforming pass and performs no further
triangulation request (its result depends only on the conforming call);
otherwise it fills from a second, refining pass whose input is the
conforming result with every triangle assigned target area `area`, and
whose option string is `"prazPQ"` with `Y` repeated `segmentSplit`
times. -/
theorem addPolygon_refinement_control (tri tri' : Triangulate) (m : MeshBuilderImpl)
    (mesh : Mesh) (p : Polygon) (g : GeometryOptions) (a : AppearanceOptions) :
    (fabs g.area < doubleEpsilon →
      addPolygon tri m mesh p g a =
        fillMesh m (tri conformingOptions (triInput p)) mesh g a ∧
      (tri' conformingOptions (triInput p) = tri conformingOptions (triInput p) →
        addPolygon tri' m mesh p g a = addPolygon tri m mesh p g a)) ∧
    (¬ fabs g.area < doubleEpsilon →
      addPolygon tri m mesh p g a =
        fillMesh m
          (tri (refineOptions g)
            { tri conformingOptions (triInput p) with
                trianglearealist :=
                  List.replicate (tri conformingOptions (triInput p)).numberoftriangles
                    g.area })
          mesh g a) ∧
    refineOptions g =
      String.mk ('p' :: 'r' :: 'a' :: 'z' :: 'P' :: 'Q' ::
        List.replicate g.segmentSplit.toNat 'Y') := by
  refine ⟨fun hc => ⟨?_, fun heq => ?_⟩, fun hc => ?_, ?_⟩
  · simp [addPolygon, hc]
  · simp [addPolygon, hc, heq]
  · simp [addPolygon, hc, refineInput]
  · rfl

/-- C7 witness: the concrete sample has `area = 0`, which is below the
epsilon, and its `addPolygon` result is the direct conforming fill. -/
theorem addPolygon_refinement_control_witness :
    fabs cGeometry.area < doubleEpsilon ∧
    addPolygon cTri cImpl emptyMesh cPolygon cGeometry cAppearance =
      fillMesh cImpl (cTri conformingOptions (triInput cPolygon)) emptyMesh cGeometry
        cAppearance :=
  ⟨by with_unfolding_all decide,
    ((addPolygon_refinement_control cTri cTri cImpl emptyMesh cPolygon cGeometry
      cAppearance).1 (by with_unfolding_all decide)).1⟩

end UtyMap
